import Mathlib

/-!
Shallow embedding of the Hull-White exotic-option Monte Carlo pricer
(`SIngle_time_Monte_Carlo.py`, `Bond_Data.py`, `Option_Pricing.py`).

Machine floats are modelled as real numbers; Python `int(x)` (truncation
toward zero) is modelled by `truncInt`; the numpy seeded random generator is
modelled as an abstract function from the seed to the sequence of per-step
standard-normal pairs.  Python exceptions that the constructor can actually
raise (ZeroDivisionError when `iteration_times = 0`) are modelled with
`Option`; arithmetic expressions that numpy evaluates without raising
(division of floats by zero yields inf/nan plus a warning, not an exception)
are modelled as total real-valued functions.
-/

noncomputable section

/-- Python `int(x)` on a float: truncation toward zero. -/
def truncInt (x : ℝ) : ℤ := if 0 ≤ x then ⌊x⌋ else ⌈x⌉

/-- The fitted cubic spline of `Bond_Data` (`interpolate.splrep` over the
market discount factors) together with its first and second derivatives, as
evaluated by `interpolate.splev` with `der = 0, 1, 2`.  The fit itself
consumes external market data, so the three evaluation maps are abstract
parameters of the embedding. -/
structure Bond_Data where
  splev0 : ℝ → ℝ
  splev1 : ℝ → ℝ
  splev2 : ℝ → ℝ

/-- `Bond_Data.get_value_on_cubic_spline_for_bond_prices`: spline evaluation,
`der = 0`. -/
def Bond_Data.get_value_on_cubic_spline_for_bond_prices (bd : Bond_Data) (x : ℝ) : ℝ :=
  bd.splev0 x

/-- `Bond_Data.get_value_for_forward_rate`: the instantaneous forward rate
`- p'(0,T) / p(0,T)` computed from the spline and its first derivative. -/
def Bond_Data.get_value_for_forward_rate (bd : Bond_Data) (x : ℝ) : ℝ :=
  -bd.splev1 x / bd.splev0 x

/-- `Bond_Data.get_value_for_T_derivative_of_forward_rate`:
`-1/p * p'' + 1/p^2 * p' * p'` computed from the spline derivatives. -/
def Bond_Data.get_value_for_T_derivative_of_forward_rate (bd : Bond_Data) (x : ℝ) : ℝ :=
  -1 / bd.splev0 x * bd.splev2 x
    + 1 / (bd.splev0 x) ^ 2 * bd.splev1 x * bd.splev1 x

/-- The state of a `Single_time_Monte_Carlo` object: every field assigned in
`__init__` (and mutated by `start_monte_carlo` for the two path lists). -/
@[ext]
structure Single_time_Monte_Carlo where
  bond_data : Bond_Data
  domestic_risk_free_rate_vol : ℝ
  mean_reversion_speed : ℝ
  maturity_T : ℝ
  iteration_times : ℤ
  timestep : ℝ
  timeline : List ℝ
  domestic_risk_free_rate_list : List ℝ
  nikkei_price_list : List ℝ
  current_federal_funds_rate : ℝ
  current_nikkei_price : ℝ
  correlation_foreign_asset_and_domestic_risk_free_rate : ℝ
  correlation_foreign_asset_and_exchange_rate : ℝ
  foreign_risk_free_rate : ℝ
  nikkei_dividends : ℝ
  foreign_asset_vol : ℝ
  exchange_rate_vol : ℝ
  Delta : ℝ
  strike_price_nikkei : ℝ
  strike_price_libor : ℝ
  random_seed : Option ℤ

namespace Single_time_Monte_Carlo

/-- `Single_time_Monte_Carlo.__init__`.  The constructor performs no
parameter validation: it only stores its arguments and computes
`timestep = maturity_T / iteration_times`, `timeline`, and the two
zero-initialised path lists of length `iteration_times + 1`.  The single
failure mode is `iteration_times = 0`, where the Python division raises
ZeroDivisionError, modelled as `none`. -/
def init (bond_data : Bond_Data)
    (domestic_risk_free_rate_vol mean_reversion_speed maturity_T Delta
      strike_price_nikkei strike_price_libor : ℝ)
    (iteration_times : ℤ)
    (current_federal_funds_rate current_nikkei_price
      correlation_foreign_asset_and_domestic_risk_free_rate
      correlation_foreign_asset_and_exchange_rate
      foreign_risk_free_rate nikkei_dividends foreign_asset_vol
      exchange_rate_vol : ℝ)
    (random_seed : Option ℤ) : Option Single_time_Monte_Carlo :=
  if iteration_times = 0 then none
  else some
    { bond_data := bond_data
      domestic_risk_free_rate_vol := domestic_risk_free_rate_vol
      mean_reversion_speed := mean_reversion_speed
      maturity_T := maturity_T
      iteration_times := iteration_times
      timestep := maturity_T / (iteration_times : ℝ)
      timeline := (List.range (iteration_times + 1).toNat).map
        (fun i => maturity_T / (iteration_times : ℝ) * (i : ℝ))
      domestic_risk_free_rate_list := List.replicate (iteration_times + 1).toNat 0
      nikkei_price_list := List.replicate (iteration_times + 1).toNat 0
      current_federal_funds_rate := current_federal_funds_rate
      current_nikkei_price := current_nikkei_price
      correlation_foreign_asset_and_domestic_risk_free_rate :=
        correlation_foreign_asset_and_domestic_risk_free_rate
      correlation_foreign_asset_and_exchange_rate :=
        correlation_foreign_asset_and_exchange_rate
      foreign_risk_free_rate := foreign_risk_free_rate
      nikkei_dividends := nikkei_dividends
      foreign_asset_vol := foreign_asset_vol
      exchange_rate_vol := exchange_rate_vol
      Delta := Delta
      strike_price_nikkei := strike_price_nikkei
      strike_price_libor := strike_price_libor
      random_seed := random_seed }

/-- `Single_time_Monte_Carlo.B_t_T`: `B(t,T) = 1/a * (1 - exp(-a*(T-t)))`. -/
def B_t_T (st : Single_time_Monte_Carlo) (t T : ℝ) : ℝ :=
  1 / st.mean_reversion_speed *
    (1 - Real.exp (-(st.mean_reversion_speed * (T - t))))

/-- `Single_time_Monte_Carlo.G`: `G(t) = 0.5 * sigma_d^2 * B(0,t)^2`. -/
def G (st : Single_time_Monte_Carlo) (t : ℝ) : ℝ :=
  0.5 * st.domestic_risk_free_rate_vol ^ 2 * (st.B_t_T 0 t) ^ 2

/-- `Single_time_Monte_Carlo.first_derivative_of_G`:
`dG/dt(t) = sigma_d^2 * B(0,t) * exp(-a*t)`. -/
def first_derivative_of_G (st : Single_time_Monte_Carlo) (t : ℝ) : ℝ :=
  st.domestic_risk_free_rate_vol ^ 2 * st.B_t_T 0 t *
    Real.exp (-(st.mean_reversion_speed * t))

/-- `Single_time_Monte_Carlo.Theta`:
`Theta(t) = f_T(0,t) + dG/dt(t) + a * (f(0,t) + G(t))`. -/
def Theta (st : Single_time_Monte_Carlo) (t : ℝ) : ℝ :=
  st.bond_data.get_value_for_T_derivative_of_forward_rate t
    + st.first_derivative_of_G t
    + st.mean_reversion_speed *
      (st.bond_data.get_value_for_forward_rate t + st.G t)

/-- `Single_time_Monte_Carlo.p_t_T`: the analytic Hull-White zero-coupon bond
price at a future time `t`, conditional on the simulated short rate `r_t`. -/
def p_t_T (st : Single_time_Monte_Carlo) (t T r_t : ℝ) : ℝ :=
  st.bond_data.get_value_on_cubic_spline_for_bond_prices T /
      st.bond_data.get_value_on_cubic_spline_for_bond_prices t *
    Real.exp
      (st.B_t_T t T * st.bond_data.get_value_for_forward_rate t
        - 1 / (4 * st.mean_reversion_speed) * st.domestic_risk_free_rate_vol ^ 2 *
            (st.B_t_T t T) ^ 2 *
            (1 - Real.exp (-(2 * st.mean_reversion_speed * t)))
        - st.B_t_T t T * r_t)

/-- The short-rate recursion of `start_monte_carlo`: entry `i` of
`domestic_risk_free_rate_list` after the loop, as a function of the per-step
standard-normal draw pairs `draws i = (epsilon1, epsilon2)`. -/
def hw_rate (st : Single_time_Monte_Carlo) (draws : ℕ → ℝ × ℝ) : ℕ → ℝ
  | 0 => st.current_federal_funds_rate
  | i + 1 =>
    st.hw_rate draws i
      + (st.Theta ((i : ℝ) * st.timestep)
          - st.mean_reversion_speed * st.hw_rate draws i) * st.timestep
      + st.domestic_risk_free_rate_vol * Real.sqrt st.timestep *
        (st.correlation_foreign_asset_and_domestic_risk_free_rate * (draws i).2
          + Real.sqrt
              (1 - st.correlation_foreign_asset_and_domestic_risk_free_rate ^ 2) *
            (draws i).1)

/-- The asset-price recursion of `start_monte_carlo`: entry `i` of
`nikkei_price_list` after the loop; the draw `(draws i).2` is the same
`epsilon2` used by the short-rate update of step `i`. -/
def nikkei (st : Single_time_Monte_Carlo) (draws : ℕ → ℝ × ℝ) : ℕ → ℝ
  | 0 => st.current_nikkei_price
  | i + 1 =>
    st.nikkei draws i
      + st.nikkei draws i *
        (st.foreign_risk_free_rate - st.nikkei_dividends
          - st.correlation_foreign_asset_and_exchange_rate * st.foreign_asset_vol *
            st.exchange_rate_vol) * st.timestep
      + st.nikkei draws i * st.foreign_asset_vol * Real.sqrt st.timestep *
        (draws i).2

/-- `Single_time_Monte_Carlo.start_monte_carlo`, for a given realisation
`draws` of the `iteration_times × 2` standard-normal array `rands`: the two
path lists are overwritten with the Euler-Maruyama recursions started at the
current federal funds rate and the current Nikkei price.  (For
`iteration_times < 0` the Python code would raise IndexError writing index 0
of an empty list; no claim exercises that regime.) -/
def start_monte_carlo (st : Single_time_Monte_Carlo) (draws : ℕ → ℝ × ℝ) :
    Single_time_Monte_Carlo :=
  { st with
    domestic_risk_free_rate_list :=
      (List.range (st.iteration_times.toNat + 1)).map (st.hw_rate draws)
    nikkei_price_list :=
      (List.range (st.iteration_times.toNat + 1)).map (st.nikkei draws) }

/-- The index `int(time / self.timestep)` used by both path accessors. -/
def index_in_list (st : Single_time_Monte_Carlo) (time : ℝ) : ℤ :=
  truncInt (time / st.timestep)

/-- `get_domestic_risk_free_rate_at_a_specified_time`.  (Python list indexing
with a negative index wraps from the end; all uses have `time ≥ 0` and a
positive timestep, so the index is non-negative and `toNat` is faithful.) -/
def get_domestic_risk_free_rate_at_a_specified_time
    (st : Single_time_Monte_Carlo) (time : ℝ) : ℝ :=
  st.domestic_risk_free_rate_list.getD (st.index_in_list time).toNat 0

/-- `get_nikkei_price_at_a_specified_time`. -/
def get_nikkei_price_at_a_specified_time
    (st : Single_time_Monte_Carlo) (time : ℝ) : ℝ :=
  st.nikkei_price_list.getD (st.index_in_list time).toNat 0

/-- `Single_time_Monte_Carlo.libor_rate_ratio`:
`p(0,T) / (p(0,t) - p(0,T)) * (1/p(t,T,r_t) - 1)`, with `r_t` read from the
simulated path at time `t`.  The Python body is a single numpy arithmetic
expression with no guard and no raise: a zero denominator produces inf/nan
(with a runtime warning), never an exception, so the embedding is a total
real-valued function. -/
def libor_rate_ratio (st : Single_time_Monte_Carlo) (t T : ℝ) : ℝ :=
  st.bond_data.get_value_on_cubic_spline_for_bond_prices T /
      (st.bond_data.get_value_on_cubic_spline_for_bond_prices t
        - st.bond_data.get_value_on_cubic_spline_for_bond_prices T) *
    (1 / st.p_t_T t T (st.get_domestic_risk_free_rate_at_a_specified_time t) - 1)

/-- `Single_time_Monte_Carlo.price_Exotic_Option_at_maturity`:
`max(0, (S(T)/S(0) - K_nikkei) * (K_libor - liborRatio(T - Delta, T)))`. -/
def price_Exotic_Option_at_maturity (st : Single_time_Monte_Carlo) : ℝ :=
  max 0
    ((st.get_nikkei_price_at_a_specified_time st.maturity_T /
          st.current_nikkei_price - st.strike_price_nikkei)
      * (st.strike_price_libor -
          st.libor_rate_ratio (st.maturity_T - st.Delta) st.maturity_T))

/-- `Single_time_Monte_Carlo.discount_factor`: the left Riemann sum
`exp(- Σ_{i=0}^{end_index-1} r[i] * Delta_t)` with
`end_index = int(T / timestep)`. -/
def discount_factor (st : Single_time_Monte_Carlo) (T : ℝ) : ℝ :=
  Real.exp
    (-(((List.range (truncInt (T / st.timestep)).toNat).map
        (fun i => st.domestic_risk_free_rate_list.getD i 0 * st.timestep)).sum))

/-- `Single_time_Monte_Carlo.current_price_Exotic_Option`. -/
def current_price_Exotic_Option (st : Single_time_Monte_Carlo) : ℝ :=
  st.discount_factor st.maturity_T * st.price_Exotic_Option_at_maturity

end Single_time_Monte_Carlo

/-- `cumulative_average_of_list` from `Option_Pricing.py`:
`[sum(listt[:i+1]) / (i+1) for i in range(len(listt))]`. -/
def cumulative_average_of_list (listt : List ℝ) : List ℝ :=
  (List.range listt.length).map (fun i => (listt.take (i + 1)).sum / ((i : ℝ) + 1))

/-- One invocation of `start_monte_carlo` through the numpy seeded generator:
`np.random.seed(self.random_seed)` followed by `np.random.normal(0,1,[n,2])`
makes the draw array a function `g` of the stored seed alone. -/
def seeded_run (g : Option ℤ → ℕ → ℝ × ℝ) (st : Single_time_Monte_Carlo) :
    Single_time_Monte_Carlo :=
  st.start_monte_carlo (g st.random_seed)

/-- The aggregation loop of `Option_Pricing.py`, state threaded through the
repeated `single_time_monte_carlo.start_monte_carlo()` calls: `mc_states g st j`
is the engine object after `j` runs.  The generator model `g` takes the call
index first (successive calls of an unseeded generator may draw different
randomness) and the stored seed second. -/
def mc_states (g : ℕ → Option ℤ → ℕ → ℝ × ℝ) (st : Single_time_Monte_Carlo) :
    ℕ → Single_time_Monte_Carlo
  | 0 => st
  | j + 1 =>
    (mc_states g st j).start_monte_carlo (g j (mc_states g st j).random_seed)

/-- `list_of_prices_Exotic_option` after `M` iterations of the aggregation
loop: run `j` appends `price_Exotic_Option_at_maturity()` of the engine state
after its `start_monte_carlo()` call. -/
def mc_price_list (g : ℕ → Option ℤ → ℕ → ℝ × ℝ)
    (st : Single_time_Monte_Carlo) (M : ℕ) : List ℝ :=
  (List.range M).map
    (fun j => (mc_states g st (j + 1)).price_Exotic_Option_at_maturity)

/-! Spec-side calibration formulas, written from the claim text, to be
compared with the code's definitions. -/

/-- Spec formula `B(t,T) = (1 - exp(-a*(T-t)))/a`. -/
def B_formula_spec (a t T : ℝ) : ℝ := (1 - Real.exp (-(a * (T - t)))) / a

/-- Spec formula `G(t) = 0.5*sigma_d^2*B(0,t)^2`. -/
def G_formula_spec (a sigma_d t : ℝ) : ℝ :=
  0.5 * sigma_d ^ 2 * (B_formula_spec a 0 t) ^ 2

/-- Spec formula `dG/dt(t) = sigma_d^2*B(0,t)*exp(-a*t)`. -/
def dG_formula_spec (a sigma_d t : ℝ) : ℝ :=
  sigma_d ^ 2 * B_formula_spec a 0 t * Real.exp (-(a * t))

/-- Spec formula for the forward-rate slope of the fitted curve:
`-price''(T)/price(T) + (price'(T)/price(T))^2`. -/
def forwardRateSlope_spec (bd : Bond_Data) (t : ℝ) : ℝ :=
  -bd.splev2 t / bd.splev0 t + (bd.splev1 t / bd.splev0 t) ^ 2

/-! Concrete example objects used by witness theorems. -/

/-- A concrete fitted curve: the constant curve `p(0,T) = 1` (spline
derivatives zero). -/
def exBD : Bond_Data := ⟨fun _ => 1, fun _ => 0, fun _ => 0⟩

/-- A concrete engine state, as `__init__` would build it for
`maturity_T = 3`, `iteration_times = 2` and a fixed explicit seed. -/
def exSt : Single_time_Monte_Carlo :=
  { bond_data := exBD
    domestic_risk_free_rate_vol := 0.015
    mean_reversion_speed := 0.03
    maturity_T := 3
    iteration_times := 2
    timestep := 3 / 2
    timeline := [0, 3 / 2, 3]
    domestic_risk_free_rate_list := [0, 0, 0]
    nikkei_price_list := [0, 0, 0]
    current_federal_funds_rate := 0.02
    current_nikkei_price := 27000
    correlation_foreign_asset_and_domestic_risk_free_rate := 0.3
    correlation_foreign_asset_and_exchange_rate := 0.2
    foreign_risk_free_rate := -0.001
    nikkei_dividends := 0.01
    foreign_asset_vol := 0.2478
    exchange_rate_vol := 0.0973
    Delta := 0.25
    strike_price_nikkei := 1
    strike_price_libor := 1
    random_seed := some 42 }

/-- A concrete realisation of the per-step standard-normal draw pairs. -/
def exDraws : ℕ → ℝ × ℝ := fun _ => (0.5, -0.3)

/-- C2: for every `t`, the calibrated drift satisfies
`Theta(t) = forwardRateSlope(t) + dG/dt(t) + a*(forwardRate(t) + G(t))`
with `B(t,T) = (1-exp(-a*(T-t)))/a`, `G(t) = 0.5*sigma_d^2*B(0,t)^2`,
`dG/dt(t) = sigma_d^2*B(0,t)*exp(-a*t)`, and the forward rate and its slope
taken from the fitted curve. -/
theorem Theta_matches_spec_formula (st : Single_time_Monte_Carlo) (t : ℝ) :
    st.Theta t
      = forwardRateSlope_spec st.bond_data t
        + dG_formula_spec st.mean_reversion_speed st.domestic_risk_free_rate_vol t
        + st.mean_reversion_speed *
            (st.bond_data.get_value_for_forward_rate t
              + G_formula_spec st.mean_reversion_speed
                  st.domestic_risk_free_rate_vol t) := by
  unfold Single_time_Monte_Carlo.Theta Single_time_Monte_Carlo.first_derivative_of_G
    Single_time_Monte_Carlo.G Single_time_Monte_Carlo.B_t_T
    Bond_Data.get_value_for_T_derivative_of_forward_rate
    forwardRateSlope_spec dG_formula_spec G_formula_spec B_formula_spec
  ring

/-- C3: the terminal payoff equals
`max(0, (S(T)/S(0) - strike_asset) * (strike_rate - liborRatio(T - Delta, T)))`,
and in particular is non-negative for every path and parameter values. -/
theorem payoff_formula_and_nonneg (st : Single_time_Monte_Carlo) :
    st.price_Exotic_Option_at_maturity
        = max 0
            ((st.get_nikkei_price_at_a_specified_time st.maturity_T /
                  st.current_nikkei_price - st.strike_price_nikkei)
              * (st.strike_price_libor -
                  st.libor_rate_ratio (st.maturity_T - st.Delta) st.maturity_T))
      ∧ 0 ≤ st.price_Exotic_Option_at_maturity :=
  ⟨rfl, le_max_left 0 _⟩

/-- C4: the discount factor is the left Riemann sum
`exp(- Σ_{i=0}^{end-1} r[i]*Delta_t)` with `end = floor(T/Delta_t)` (Python
`int` truncation coincides with `floor` for the non-negative times used), no
floor or cap is applied to the result, and it equals exactly 1 whenever the
short-rate path is identically zero. -/
theorem discount_factor_left_riemann (st : Single_time_Monte_Carlo) (T : ℝ)
    (hT : 0 ≤ T) (hts : 0 < st.timestep) :
    st.discount_factor T
        = Real.exp (-(((List.range (Int.toNat ⌊T / st.timestep⌋)).map
            (fun i => st.domestic_risk_free_rate_list.getD i 0 * st.timestep)).sum))
      ∧ ((∀ x ∈ st.domestic_risk_free_rate_list, x = 0) →
          st.discount_factor T = 1) := by
  have hdiv : 0 ≤ T / st.timestep := div_nonneg hT hts.le
  have htr : truncInt (T / st.timestep) = ⌊T / st.timestep⌋ := if_pos hdiv
  constructor
  · unfold Single_time_Monte_Carlo.discount_factor
    rw [htr]
  · intro hzero
    unfold Single_time_Monte_Carlo.discount_factor
    have hsum : (((List.range (truncInt (T / st.timestep)).toNat).map
        (fun i => st.domestic_risk_free_rate_list.getD i 0 * st.timestep)).sum) = 0 := by
      apply List.sum_eq_zero
      intro x hx
      obtain ⟨i, _, hfx⟩ := List.mem_map.mp hx
      have hz : st.domestic_risk_free_rate_list.getD i 0 = 0 := by
        by_cases hlen : i < st.domestic_risk_free_rate_list.length
        · rw [List.getD_eq_getElem _ _ hlen]
          exact hzero _ (List.getElem_mem hlen)
        · exact List.getD_eq_default _ _ (le_of_not_lt hlen)
      rw [← hfx, hz, zero_mul]
    rw [hsum, neg_zero, Real.exp_zero]

/-- Witness for C4 at the concrete state `exSt` (zero short-rate path),
`T = 3`. -/
theorem discount_factor_left_riemann_witness :
    (0:ℝ) ≤ 3 ∧ 0 < exSt.timestep ∧ exSt.discount_factor 3 = 1 := by
  have hts : 0 < exSt.timestep := by norm_num [exSt]
  refine ⟨by norm_num, hts, ?_⟩
  refine (discount_factor_left_riemann exSt 3 (by norm_num) hts).2 ?_
  intro x hx
  have hl : exSt.domestic_risk_free_rate_list = [0, 0, 0] := rfl
  rw [hl] at hx
  simpa using hx

/-- C7, amended: `libor_rate_ratio` computes exactly
`price(T) / (price(t) - price(T)) * (1/p(t,T,r_t) - 1)` with `r_t` read from
the path at time `t`; it is a single guard-free arithmetic expression, total
in its inputs — no error path exists. -/
theorem libor_rate_ratio_formula (st : Single_time_Monte_Carlo) (t T : ℝ) :
    Single_time_Monte_Carlo.libor_rate_ratio st t T
      = st.bond_data.get_value_on_cubic_spline_for_bond_prices T /
          (st.bond_data.get_value_on_cubic_spline_for_bond_prices t
            - st.bond_data.get_value_on_cubic_spline_for_bond_prices T) *
        (1 / st.p_t_T t T (st.get_domestic_risk_free_rate_at_a_specified_time t)
          - 1) := rfl

/-- C7 counterexample: on the constant curve `p ≡ 1` the denominator
`price(t) - price(T)` is exactly zero at `t = 1/4`, `T = 1/2`, yet the
operation returns a value instead of failing with NumericInstabilityError
(the Python body has no guard and no raise; numpy division by zero emits a
warning and yields a non-finite float, modelled here by real-field division,
under which the expression evaluates to 0). -/
theorem libor_rate_ratio_returns_value_on_equal_prices :
    Single_time_Monte_Carlo.libor_rate_ratio exSt (1/4) (1/2) = 0 := by
  unfold Single_time_Monte_Carlo.libor_rate_ratio
    Bond_Data.get_value_on_cubic_spline_for_bond_prices
  norm_num [exSt, exBD]

/-- C8, amended: construction performs no validation at all — for any
parameter values (valid or not) with `iteration_times ≠ 0` it succeeds and
stores every value unchanged (never clamping), and its only failure is
`iteration_times = 0`, a ZeroDivisionError from `maturity_T / iteration_times`,
not a ConfigurationError. -/
theorem init_stores_parameters_unvalidated (bd : Bond_Data)
    (sd a T D Kn Kl : ℝ) (n : ℤ) (r0 S0 rsr rsx rf qf sf sx : ℝ)
    (seed : Option ℤ) (hn : n ≠ 0) :
    Option.map
        (fun st => (st.mean_reversion_speed, st.domestic_risk_free_rate_vol,
          st.correlation_foreign_asset_and_domestic_risk_free_rate,
          st.correlation_foreign_asset_and_exchange_rate,
          st.foreign_asset_vol, st.exchange_rate_vol, st.iteration_times))
        (Single_time_Monte_Carlo.init bd sd a T D Kn Kl n r0 S0 rsr rsx rf qf
          sf sx seed)
        = some (a, sd, rsr, rsx, sf, sx, n)
      ∧ Single_time_Monte_Carlo.init bd sd a T D Kn Kl 0 r0 S0 rsr rsx rf qf
          sf sx seed = none := by
  constructor
  · unfold Single_time_Monte_Carlo.init
    rw [if_neg hn]
    rfl
  · unfold Single_time_Monte_Carlo.init
    simp

/-- Witness for C8's amended theorem at concrete (invalid) parameters:
`a = -1`, `sigma_d = -0.5`, `rho_sr = 2`, `rho_sx = -3`, negative
volatilities, `iteration_times = 10`. -/
theorem init_stores_parameters_unvalidated_witness :
    Option.map
        (fun st => (st.mean_reversion_speed, st.domestic_risk_free_rate_vol,
          st.correlation_foreign_asset_and_domestic_risk_free_rate,
          st.correlation_foreign_asset_and_exchange_rate,
          st.foreign_asset_vol, st.exchange_rate_vol, st.iteration_times))
        (Single_time_Monte_Carlo.init exBD (-0.5) (-1) 3 0.25 1 1 10 0.02
          27000 2 (-3) (-0.001) 0.01 (-1) (-1) none)
        = some ((-1), (-0.5), 2, (-3), (-1), (-1), 10)
      ∧ Single_time_Monte_Carlo.init exBD (-0.5) (-1) 3 0.25 1 1 0 0.02
          27000 2 (-3) (-0.001) 0.01 (-1) (-1) none = none :=
  init_stores_parameters_unvalidated exBD (-0.5) (-1) 3 0.25 1 1 10 0.02
    27000 2 (-3) (-0.001) 0.01 (-1) (-1) none (by norm_num)

/-- The engine constructed with invalid model parameters (non-positive
mean-reversion speed and volatilities, correlations outside `[-1,1]`). -/
def badEngine : Option Single_time_Monte_Carlo :=
  Single_time_Monte_Carlo.init exBD (-0.5) (-1) 3 0.25 1 1 10 0.02 27000 2
    (-3) (-0.001) 0.01 (-1) (-1) none

/-- C8 counterexample: constructing the engine with invalid model parameters
(mean-reversion speed `-1`, volatility `-0.5`, correlations `2` and `-3`,
asset and exchange-rate volatilities `-1`) does not fail: construction
succeeds and the invalid values are stored verbatim. -/
theorem init_accepts_invalid_parameters :
    badEngine.isSome = true
      ∧ Option.map (fun st => st.mean_reversion_speed) badEngine = some (-1)
      ∧ Option.map
          (fun st => st.correlation_foreign_asset_and_domestic_risk_free_rate)
          badEngine = some 2
      ∧ Option.map (fun st => st.correlation_foreign_asset_and_exchange_rate)
          badEngine = some (-3)
      ∧ Option.map (fun st => st.foreign_asset_vol) badEngine = some (-1) := by
  unfold badEngine Single_time_Monte_Carlo.init
  norm_num

/-- After `start_monte_carlo`, entry `j ≤ iteration_times` of the short-rate
list is the value of the Euler recursion at step `j`. -/
lemma rate_list_getD (st : Single_time_Monte_Carlo) (draws : ℕ → ℝ × ℝ)
    (j : ℕ) (hj : j < st.iteration_times.toNat + 1) :
    (st.start_monte_carlo draws).domestic_risk_free_rate_list.getD j 0
      = st.hw_rate draws j := by
  unfold Single_time_Monte_Carlo.start_monte_carlo
  have hlen : j < ((List.range (st.iteration_times.toNat + 1)).map
      (st.hw_rate draws)).length := by
    simpa using hj
  rw [List.getD_eq_getElem _ _ hlen]
  simp

/-- After `start_monte_carlo`, entry `j ≤ iteration_times` of the asset-price
list is the value of the Euler recursion at step `j`. -/
lemma nikkei_list_getD (st : Single_time_Monte_Carlo) (draws : ℕ → ℝ × ℝ)
    (j : ℕ) (hj : j < st.iteration_times.toNat + 1) :
    (st.start_monte_carlo draws).nikkei_price_list.getD j 0
      = st.nikkei draws j := by
  unfold Single_time_Monte_Carlo.start_monte_carlo
  have hlen : j < ((List.range (st.iteration_times.toNat + 1)).map
      (st.nikkei draws)).length := by
    simpa using hj
  rw [List.getD_eq_getElem _ _ hlen]
  simp

/-- C1: one simulation step of `start_monte_carlo` updates, for every
`i < iteration_times`,
`r[i+1] = r[i] + (Theta(i*Delta_t) - a*r[i])*Delta_t
          + sigma_d*sqrt(Delta_t)*(rho_sr*eps2 + sqrt(1-rho_sr^2)*eps1)` and
`S[i+1] = S[i] + S[i]*(r_f - q_f - rho_sx*sigma_f*sigma_x)*Delta_t
          + S[i]*sigma_f*sqrt(Delta_t)*eps2`,
where `(eps1, eps2) = draws i` are the step's two independent
standard-normal draws and the same `eps2` appears in both updates. -/
theorem euler_step_updates (st : Single_time_Monte_Carlo)
    (draws : ℕ → ℝ × ℝ) (i : ℕ) (hi : i < st.iteration_times.toNat) :
    (st.start_monte_carlo draws).domestic_risk_free_rate_list.getD (i + 1) 0
        = (st.start_monte_carlo draws).domestic_risk_free_rate_list.getD i 0
          + (st.Theta ((i : ℝ) * st.timestep)
              - st.mean_reversion_speed *
                (st.start_monte_carlo draws).domestic_risk_free_rate_list.getD
                  i 0) * st.timestep
          + st.domestic_risk_free_rate_vol * Real.sqrt st.timestep *
            (st.correlation_foreign_asset_and_domestic_risk_free_rate *
                (draws i).2
              + Real.sqrt
                  (1 -
                    st.correlation_foreign_asset_and_domestic_risk_free_rate
                      ^ 2) * (draws i).1)
      ∧ (st.start_monte_carlo draws).nikkei_price_list.getD (i + 1) 0
        = (st.start_monte_carlo draws).nikkei_price_list.getD i 0
          + (st.start_monte_carlo draws).nikkei_price_list.getD i 0 *
            (st.foreign_risk_free_rate - st.nikkei_dividends
              - st.correlation_foreign_asset_and_exchange_rate *
                st.foreign_asset_vol * st.exchange_rate_vol) * st.timestep
          + (st.start_monte_carlo draws).nikkei_price_list.getD i 0 *
            st.foreign_asset_vol * Real.sqrt st.timestep * (draws i).2 := by
  have hi1 : i < st.iteration_times.toNat + 1 := Nat.lt_succ_of_lt hi
  have hi2 : i + 1 < st.iteration_times.toNat + 1 := Nat.succ_lt_succ hi
  constructor
  · rw [rate_list_getD st draws (i + 1) hi2, rate_list_getD st draws i hi1]
    rfl
  · rw [nikkei_list_getD st draws (i + 1) hi2, nikkei_list_getD st draws i hi1]
    rfl

/-- Witness for C1 at the concrete state `exSt` and draws `exDraws`,
step `i = 0`. -/
theorem euler_step_updates_witness :
    (0 : ℕ) < exSt.iteration_times.toNat
      ∧ ((exSt.start_monte_carlo exDraws).domestic_risk_free_rate_list.getD 1 0
        = (exSt.start_monte_carlo exDraws).domestic_risk_free_rate_list.getD 0 0
          + (exSt.Theta ((0 : ℕ) * exSt.timestep)
              - exSt.mean_reversion_speed *
                (exSt.start_monte_carlo
                  exDraws).domestic_risk_free_rate_list.getD 0 0) * exSt.timestep
          + exSt.domestic_risk_free_rate_vol * Real.sqrt exSt.timestep *
            (exSt.correlation_foreign_asset_and_domestic_risk_free_rate *
                (exDraws 0).2
              + Real.sqrt
                  (1 -
                    exSt.correlation_foreign_asset_and_domestic_risk_free_rate
                      ^ 2) * (exDraws 0).1)) := by
  have h0 : (0 : ℕ) < exSt.iteration_times.toNat := by
    norm_num [exSt]
  exact ⟨h0, (euler_step_updates exSt exDraws 0 h0).1⟩

/-- C10: for every `0 ≤ time ≤ maturity_T` with `iteration_times ≥ 1` and
`timestep = maturity_T / iteration_times`, the accessor index
`int(time/timestep)` is at most `iteration_times`, hence a valid index into
both length-`(iteration_times+1)` path lists — including at exactly
`time = maturity_T`, as the payoff and discount-factor computations use. -/
theorem accessor_index_in_bounds (st : Single_time_Monte_Carlo)
    (draws : ℕ → ℝ × ℝ) (time : ℝ) (h0 : 0 ≤ time)
    (h1 : time ≤ st.maturity_T) (hn : 1 ≤ st.iteration_times)
    (hT : 0 < st.maturity_T)
    (hts : st.timestep = st.maturity_T / (st.iteration_times : ℝ)) :
    (st.index_in_list time).toNat
        < (st.start_monte_carlo draws).domestic_risk_free_rate_list.length
      ∧ (st.index_in_list time).toNat
        < (st.start_monte_carlo draws).nikkei_price_list.length := by
  have hnR : (0 : ℝ) < (st.iteration_times : ℝ) := by
    exact_mod_cast lt_of_lt_of_le Int.zero_lt_one hn
  have htsp : 0 < st.timestep := by
    rw [hts]; exact div_pos hT hnR
  have hq : 0 ≤ time / st.timestep := div_nonneg h0 htsp.le
  have hle : time / st.timestep ≤ (st.iteration_times : ℝ) := by
    rw [hts, div_le_iff₀ (div_pos hT hnR)]
    calc time ≤ st.maturity_T := h1
      _ = (st.iteration_times : ℝ) * (st.maturity_T / (st.iteration_times : ℝ)) := by
          rw [mul_div_assoc']
          rw [mul_comm]
          rw [mul_div_assoc]
          rw [div_self (ne_of_gt hnR), mul_one]
  have hidx : st.index_in_list time ≤ st.iteration_times := by
    unfold Single_time_Monte_Carlo.index_in_list truncInt
    rw [if_pos hq]
    calc ⌊time / st.timestep⌋ ≤ ⌊(st.iteration_times : ℝ)⌋ := Int.floor_le_floor hle
      _ = st.iteration_times := Int.floor_intCast _
  have hnat : (st.index_in_list time).toNat ≤ st.iteration_times.toNat :=
    Int.toNat_le_toNat hidx
  have hlen1 :
      (st.start_monte_carlo draws).domestic_risk_free_rate_list.length
        = st.iteration_times.toNat + 1 := by
    unfold Single_time_Monte_Carlo.start_monte_carlo
    simp
  have hlen2 :
      (st.start_monte_carlo draws).nikkei_price_list.length
        = st.iteration_times.toNat + 1 := by
    unfold Single_time_Monte_Carlo.start_monte_carlo
    simp
  constructor
  · rw [hlen1]; exact Nat.lt_succ_of_le hnat
  · rw [hlen2]; exact Nat.lt_succ_of_le hnat

/-- Witness for C10 at the concrete state `exSt`, reading at exactly the
maturity `time = 3`. -/
theorem accessor_index_in_bounds_witness :
    (0 : ℝ) ≤ 3 ∧ (3 : ℝ) ≤ exSt.maturity_T ∧ 1 ≤ exSt.iteration_times
      ∧ ((exSt.index_in_list 3).toNat
          < (exSt.start_monte_carlo exDraws).domestic_risk_free_rate_list.length
        ∧ (exSt.index_in_list 3).toNat
          < (exSt.start_monte_carlo exDraws).nikkei_price_list.length) := by
  refine ⟨by norm_num, by norm_num [exSt], by norm_num [exSt], ?_⟩
  refine accessor_index_in_bounds exSt exDraws 3 (by norm_num)
    (by norm_num [exSt]) (by norm_num [exSt]) (by norm_num [exSt]) ?_
  have h1 : exSt.timestep = 3 / 2 := rfl
  have h2 : exSt.maturity_T = 3 := rfl
  have h3 : exSt.iteration_times = 2 := rfl
  rw [h1, h2, h3]
  norm_num

/-- The last entry of the cumulative-average sequence of a non-empty list is
the plain arithmetic mean of the whole list. -/
lemma cumulative_average_last (l : List ℝ) (hl : l ≠ []) :
    (cumulative_average_of_list l).getD (l.length - 1) 0
      = l.sum / (l.length : ℝ) := by
  obtain ⟨m, hm⟩ : ∃ m, l.length = m + 1 :=
    ⟨l.length - 1, (Nat.succ_pred_eq_of_pos (List.length_pos.mpr hl)).symm⟩
  unfold cumulative_average_of_list
  have hlen : l.length - 1 < (List.range l.length).length := by
    rw [List.length_range, hm]
    omega
  have hlen2 : l.length - 1 <
      ((List.range l.length).map
        (fun i => (l.take (i + 1)).sum / ((i : ℝ) + 1))).length := by
    simpa using hlen
  rw [List.getD_eq_getElem _ _ hlen2]
  simp only [List.getElem_map, List.getElem_range]
  rw [hm]
  simp only [Nat.add_sub_cancel]
  rw [← hm, List.take_length]
  rw [hm]
  push_cast
  ring_nf

/-- C5: for every non-empty list of per-run present values, entry `i` of the
cumulative-average sequence is the arithmetic mean (sum divided by count) of
the first `i+1` values, and the last entry — the final point estimate — is
invariant under any permutation of the run order. -/
theorem cumulative_average_mean_and_perm_invariant (l : List ℝ)
    (hl : l ≠ []) :
    (∀ i, i < l.length →
        (cumulative_average_of_list l).getD i 0
          = (l.take (i + 1)).sum / ((l.take (i + 1)).length : ℝ))
      ∧ ∀ l', l.Perm l' →
          (cumulative_average_of_list l).getD (l.length - 1) 0
            = (cumulative_average_of_list l').getD (l'.length - 1) 0 := by
  constructor
  · intro i hi
    unfold cumulative_average_of_list
    have hlen : i < ((List.range l.length).map
        (fun j => (l.take (j + 1)).sum / ((j : ℝ) + 1))).length := by
      simpa using hi
    rw [List.getD_eq_getElem _ _ hlen]
    simp only [List.getElem_map, List.getElem_range]
    have htk : (l.take (i + 1)).length = i + 1 := by
      rw [List.length_take]
      exact min_eq_left (Nat.succ_le_of_lt hi)
    rw [htk]
    push_cast
    ring_nf
  · intro l' hperm
    have hl' : l' ≠ [] := by
      intro hnil
      apply hl
      have := hperm.length_eq
      rw [hnil] at this
      exact List.length_eq_zero.mp this
    rw [cumulative_average_last l hl, cumulative_average_last l' hl',
      hperm.sum_eq, hperm.length_eq]

/-- Witness for C5 at the concrete list `[1, 3]` and its permutation
`[3, 1]`. -/
theorem cumulative_average_witness :
    (cumulative_average_of_list [(1 : ℝ), 3]).getD 1 0
        = (([(1 : ℝ), 3].take 2).sum / (([(1 : ℝ), 3].take 2).length : ℝ))
      ∧ (cumulative_average_of_list [(1 : ℝ), 3]).getD 1 0
        = (cumulative_average_of_list [(3 : ℝ), 1]).getD 1 0 :=
  ⟨(cumulative_average_mean_and_perm_invariant [(1 : ℝ), 3] (by simp)).1 1
      (by norm_num),
    (cumulative_average_mean_and_perm_invariant [(1 : ℝ), 3] (by simp)).2
      [(3 : ℝ), 1] (List.Perm.swap 3 1 [])⟩

/-- The generator of one invocation, constant over the draw sequence. -/
def exG1 : Option ℤ → ℕ → ℝ × ℝ := fun _ _ => (0, 0)

/-- The generator of a second invocation: it agrees with `exG1` on every
explicit seed but draws differently when no seed is given. -/
def exG2 : Option ℤ → ℕ → ℝ × ℝ := fun o =>
  match o with
  | some _ => fun _ => (0, 0)
  | none => fun _ => (1, 1)

/-- C6: with a fixed explicit (non-None) seed and fixed parameters, two
invocations of the path simulation — through any two realisations of the
seeded numpy generator, which by the determinism of `np.random.seed` agree
on every explicit seed — receive identical sequences of random draws and
produce identical short-rate and asset-price paths. -/
theorem seeded_run_deterministic (g1 g2 : Option ℤ → ℕ → ℝ × ℝ)
    (st : Single_time_Monte_Carlo) (s : ℤ)
    (hg : ∀ z, g1 (some z) = g2 (some z))
    (hs : st.random_seed = some s) :
    g1 st.random_seed = g2 st.random_seed
      ∧ seeded_run g1 st = seeded_run g2 st := by
  have hd : g1 st.random_seed = g2 st.random_seed := by rw [hs]; exact hg s
  exact ⟨hd, by unfold seeded_run; rw [hd]⟩

/-- Witness for C6: `exG1` and `exG2` differ on unseeded draws yet agree on
every explicit seed; on `exSt` (seed 42) the two invocations coincide. -/
theorem seeded_run_deterministic_witness :
    exG1 exSt.random_seed = exG2 exSt.random_seed
      ∧ seeded_run exG1 exSt = seeded_run exG2 exSt :=
  seeded_run_deterministic exG1 exG2 exSt 42 (fun _ => rfl) rfl


/-- Overwrite the two path lists of an engine (the only mutation
`start_monte_carlo` performs). -/
def set_lists (st : Single_time_Monte_Carlo) (l1 l2 : List ℝ) :
    Single_time_Monte_Carlo :=
  { st with
    domestic_risk_free_rate_list := l1
    nikkei_price_list := l2 }

/-- `start_monte_carlo` is exactly a `set_lists` with the two recursions. -/
lemma start_monte_carlo_eq_set_lists (st : Single_time_Monte_Carlo)
    (d : ℕ → ℝ × ℝ) :
    st.start_monte_carlo d
      = set_lists st
          ((List.range (st.iteration_times.toNat + 1)).map (st.hw_rate d))
          ((List.range (st.iteration_times.toNat + 1)).map (st.nikkei d)) :=
  rfl

/-- `hw_rate` reads only the model parameters, never the two path lists. -/
lemma hw_rate_set_lists (st : Single_time_Monte_Carlo) (l1 l2 : List ℝ)
    (d : ℕ → ℝ × ℝ) (i : ℕ) :
    (set_lists st l1 l2).hw_rate d i = st.hw_rate d i := by
  induction i with
  | zero => rfl
  | succ n ih =>
    simp only [Single_time_Monte_Carlo.hw_rate, ih]
    rfl

/-- `nikkei` reads only the model parameters, never the two path lists. -/
lemma nikkei_set_lists (st : Single_time_Monte_Carlo) (l1 l2 : List ℝ)
    (d : ℕ → ℝ × ℝ) (i : ℕ) :
    (set_lists st l1 l2).nikkei d i = st.nikkei d i := by
  induction i with
  | zero => rfl
  | succ n ih =>
    simp only [Single_time_Monte_Carlo.nikkei, ih]
    rfl

/-- Running the simulation on an engine whose path lists were overwritten
gives the same result as running it on the original engine: the loop reads
parameters only and rebuilds both lists from scratch. -/
lemma start_monte_carlo_set_lists (st : Single_time_Monte_Carlo)
    (l1 l2 : List ℝ) (d : ℕ → ℝ × ℝ) :
    (set_lists st l1 l2).start_monte_carlo d = st.start_monte_carlo d := by
  rw [start_monte_carlo_eq_set_lists, start_monte_carlo_eq_set_lists]
  have h1 : (set_lists st l1 l2).hw_rate d = st.hw_rate d :=
    funext (hw_rate_set_lists st l1 l2 d)
  have h2 : (set_lists st l1 l2).nikkei d = st.nikkei d :=
    funext (nikkei_set_lists st l1 l2 d)
  have h3 : (set_lists st l1 l2).iteration_times = st.iteration_times := rfl
  rw [h1, h2, h3]
  unfold set_lists
  rfl

/-- Re-running `start_monte_carlo` overwrites the previous run's lists. -/
lemma start_monte_carlo_overwrites (st : Single_time_Monte_Carlo)
    (d d' : ℕ → ℝ × ℝ) :
    (st.start_monte_carlo d).start_monte_carlo d'
      = st.start_monte_carlo d' := by
  rw [start_monte_carlo_eq_set_lists st d]
  exact start_monte_carlo_set_lists st _ _ d'

/-- The aggregation loop never changes the stored seed. -/
lemma mc_states_random_seed (g : ℕ → Option ℤ → ℕ → ℝ × ℝ)
    (st : Single_time_Monte_Carlo) (j : ℕ) :
    (mc_states g st j).random_seed = st.random_seed := by
  induction j with
  | zero => rfl
  | succ n ih => exact ih

/-- With a non-None stored seed, every iterate of the aggregation loop past
the first equals one run of the simulation with the seed's draw sequence. -/
lemma mc_states_eq (g : ℕ → Option ℤ → ℕ → ℝ × ℝ)
    (st : Single_time_Monte_Carlo) (s : ℤ)
    (hg : ∀ z j k, g j (some z) = g k (some z))
    (hs : st.random_seed = some s) (j : ℕ) :
    mc_states g st (j + 1) = st.start_monte_carlo (g 0 (some s)) := by
  induction j with
  | zero =>
    show st.start_monte_carlo (g 0 st.random_seed)
      = st.start_monte_carlo (g 0 (some s))
    rw [hs]
  | succ n ih =>
    show (mc_states g st (n + 1)).start_monte_carlo
        (g (n + 1) (mc_states g st (n + 1)).random_seed)
      = st.start_monte_carlo (g 0 (some s))
    rw [mc_states_random_seed, hs, ih, start_monte_carlo_overwrites,
      hg s (n + 1) 0]

/-- The cumulative-average sequence of a constant list is that constant
list. -/
lemma cumulative_average_replicate (M : ℕ) (v : ℝ) :
    cumulative_average_of_list (List.replicate M v) = List.replicate M v := by
  unfold cumulative_average_of_list
  rw [List.length_replicate]
  refine List.ext_getElem (by simp) ?_
  intro i h1 h2
  simp only [List.getElem_map, List.getElem_range, List.getElem_replicate]
  have hi : i < M := by simpa using h2
  rw [List.take_replicate, min_eq_left (Nat.succ_le_of_lt hi),
    List.sum_replicate, nsmul_eq_mul]
  push_cast
  have hne : (i : ℝ) + 1 ≠ 0 := by positivity
  field_simp

/-- C9: with a non-None configured seed, every `start_monte_carlo` call
reseeds the generator with that same seed before drawing, so all `M`
aggregated runs over the same engine object produce identical paths and
identical prices: the per-run price list is constant and the
cumulative-average sequence is that same constant sequence. -/
theorem reseeded_runs_identical (g : ℕ → Option ℤ → ℕ → ℝ × ℝ)
    (st : Single_time_Monte_Carlo) (M : ℕ) (s : ℤ)
    (hg : ∀ z j k, g j (some z) = g k (some z))
    (hs : st.random_seed = some s) :
    mc_price_list g st M
        = List.replicate M
            ((st.start_monte_carlo
              (g 0 (some s))).price_Exotic_Option_at_maturity)
      ∧ cumulative_average_of_list (mc_price_list g st M)
        = List.replicate M
            ((st.start_monte_carlo
              (g 0 (some s))).price_Exotic_Option_at_maturity) := by
  have h1 : mc_price_list g st M
      = List.replicate M
          ((st.start_monte_carlo
            (g 0 (some s))).price_Exotic_Option_at_maturity) := by
    unfold mc_price_list
    have hcg : ∀ j ∈ List.range M,
        (mc_states g st (j + 1)).price_Exotic_Option_at_maturity
          = (st.start_monte_carlo
              (g 0 (some s))).price_Exotic_Option_at_maturity :=
      fun j _ => by rw [mc_states_eq g st s hg hs j]
    rw [List.map_congr_left hcg, List.map_const', List.length_range]
  exact ⟨h1, by rw [h1, cumulative_average_replicate]⟩

/-- A per-call generator model that ignores call index and seed. -/
def exG9 : ℕ → Option ℤ → ℕ → ℝ × ℝ := fun _ _ _ => (0.5, -0.3)

/-- Witness for C9 at the concrete engine `exSt` (seed 42), three runs. -/
theorem reseeded_runs_identical_witness :
    mc_price_list exG9 exSt 3
        = List.replicate 3
            ((exSt.start_monte_carlo
              (exG9 0 (some 42))).price_Exotic_Option_at_maturity)
      ∧ cumulative_average_of_list (mc_price_list exG9 exSt 3)
        = List.replicate 3
            ((exSt.start_monte_carlo
              (exG9 0 (some 42))).price_Exotic_Option_at_maturity) :=
  reseeded_runs_identical exG9 exSt 3 42 (fun _ _ _ => rfl) rfl
